import Mathlib

/-!
Verification of the open-whisper ASR gateway (Python) against its
natural-language specification, via a shallow embedding in Lean 4.

Source files embedded here:
- `src/asr/service.py` (ASRService: authorize, transcribe, temp-file
  cleanup, auth-token load/create, transcript postprocessing),
- `src/postprocess/apple_transcript_cleaner.py` (AppleTranscriptCleaner.clean),
- `src/asr/providers.py` (WhisperKitTranscriber response handling and
  `_build_multipart_body`),
- `src/asr/router.py` / `src/asr/schemas.py` / `src/asr/dependencies.py`
  (health endpoint).

Python strings are Lean `String`s; the file system visible to a
`transcribe` call is a `List String` of existing path names; fallible
external calls (the provider, the cleanup model session) are arguments of
type `Except String _` so that every exception path of the source is a
constructor case.  Machine-level concerns (actual I/O, threads, timing)
are outside the embedding; the control flow and data flow of the source
are mirrored branch by branch.
-/

/-! ## Python `str.strip()` -/

/-- Leading-whitespace removal on a character list (the front half of
Python `str.strip()`). -/
def trimStartChars (cs : List Char) : List Char :=
  cs.dropWhile Char.isWhitespace

/-- Trailing-whitespace removal on a character list (the back half of
Python `str.strip()`). -/
def trimEndChars (cs : List Char) : List Char :=
  (cs.reverse.dropWhile Char.isWhitespace).reverse

/-- Python `str.strip()` on a character list: drop whitespace from both
ends. -/
def stripChars (cs : List Char) : List Char :=
  trimStartChars (trimEndChars cs)

/-- Python `str.strip()` (no arguments): remove leading and trailing
whitespace. -/
def pyStrip (s : String) : String :=
  String.mk (stripChars s.data)

theorem dropWhile_head_false {p : Char → Bool} :
    ∀ {l : List Char} {a : Char} {t : List Char},
      l.dropWhile p = a :: t → p a = false := by
  intro l
  induction l with
  | nil => intro a t h; simp [List.dropWhile] at h
  | cons c cs ih =>
      intro a t h
      rw [List.dropWhile_cons] at h
      by_cases hc : p c
      · simp [hc] at h
        exact ih h
      · simp [hc] at h
        obtain ⟨rfl, -⟩ := h
        simpa using hc

theorem dropWhile_dropWhile {p : Char → Bool} (l : List Char) :
    (l.dropWhile p).dropWhile p = l.dropWhile p := by
  cases h : l.dropWhile p with
  | nil => simp
  | cons a t =>
      have ha : p a = false := dropWhile_head_false h
      simp [List.dropWhile_cons, ha]

theorem dropWhile_append_of_ne_nil {p : Char → Bool} :
    ∀ (l₁ l₂ : List Char), l₁.dropWhile p ≠ [] →
      (l₁ ++ l₂).dropWhile p = l₁.dropWhile p ++ l₂ := by
  intro l₁
  induction l₁ with
  | nil => intro l₂ h; simp [List.dropWhile] at h
  | cons c cs ih =>
      intro l₂ h
      by_cases hc : p c
      · rw [List.dropWhile_cons] at h
        simp only [hc, if_true] at h
        simp [List.dropWhile_cons, hc, ih l₂ h]
      · simp [List.dropWhile_cons, hc]

theorem dropWhile_append_of_eq_nil {p : Char → Bool} :
    ∀ (l₁ l₂ : List Char), l₁.dropWhile p = [] →
      (l₁ ++ l₂).dropWhile p = l₂.dropWhile p := by
  intro l₁
  induction l₁ with
  | nil => intro l₂ _; rfl
  | cons c cs ih =>
      intro l₂ h
      rw [List.dropWhile_cons] at h
      by_cases hc : p c
      · simp only [hc, if_true] at h
        simp [List.dropWhile_cons, hc, ih l₂ h]
      · simp [hc] at h

theorem trimStart_trimStart (l : List Char) :
    trimStartChars (trimStartChars l) = trimStartChars l :=
  dropWhile_dropWhile l

theorem trimEnd_trimStart_trimEnd (x : List Char) :
    trimEndChars (trimStartChars (trimEndChars x)) =
      trimStartChars (trimEndChars x) := by
  unfold trimEndChars trimStartChars
  cases hd : x.reverse.dropWhile Char.isWhitespace with
  | nil => simp [hd]
  | cons a t =>
      have ha : Char.isWhitespace a = false := dropWhile_head_false hd
      have hsplit :
          ∃ z : List Char,
            (t.reverse ++ [a]).dropWhile Char.isWhitespace = z ++ [a] := by
        by_cases hz : t.reverse.dropWhile Char.isWhitespace = []
        · refine ⟨[], ?_⟩
          have h1 := dropWhile_append_of_eq_nil t.reverse [a] hz
          simpa [List.dropWhile_cons, ha] using h1
        · exact ⟨_, dropWhile_append_of_ne_nil t.reverse [a] hz⟩
      obtain ⟨z, hz⟩ := hsplit
      simp only [List.reverse_cons, hz]
      simp [List.dropWhile_cons, ha]

theorem stripChars_idem (cs : List Char) :
    stripChars (stripChars cs) = stripChars cs := by
  unfold stripChars
  rw [trimEnd_trimStart_trimEnd, trimStart_trimStart]

/-- Stripping is idempotent: the output of `pyStrip` has no leading or
trailing whitespace. -/
theorem pyStrip_idem (s : String) : pyStrip (pyStrip s) = pyStrip s := by
  unfold pyStrip
  simp [stripChars_idem]

theorem trimEnd_append_newline (cs : List Char) :
    trimEndChars (cs ++ ['\n']) = trimEndChars cs := by
  unfold trimEndChars
  have : Char.isWhitespace '\n' = true := by decide
  simp [List.dropWhile_cons, this]

/-- Appending a newline does not change the stripped value. -/
theorem pyStrip_append_newline (s : String) :
    pyStrip (s ++ "\n") = pyStrip s := by
  unfold pyStrip stripChars
  have hd : (s ++ "\n").data = s.data ++ ['\n'] := by
    simp [String.data_append]
  rw [hd, trimEnd_append_newline]

/-! ## `ASRService.authorize` (service.py lines 58-61) -/

deriving instance DecidableEq for Except

/-- Token load/create over the persisted file, modelled on the file
contents: `stored` is `none` when `auth_token_file` does not exist and
`some contents` otherwise; `fresh` is the value `secrets.token_urlsafe(32)`
would produce on this call.  Returns the token handed back to the caller
together with the resulting file contents.  Directory creation and the
best-effort `os.chmod` calls touch only permissions, not the contents
modelled here. -/
def loadOrCreateAuthToken (stored : Option String) (fresh : String) :
    String × Option String :=
  let token := match stored with
    | some contents => pyStrip contents
    | none => ""
  if token = "" then (fresh, some (fresh ++ "\n"))
  else (token, stored)

/-- C5: token load/create is idempotent over the persisted file.  An
existing file with non-empty trimmed contents is loaded unchanged, a
missing or empty file leads to the fresh token being persisted, and a
second run over the resulting file returns the same token and leaves the
file unchanged.  `fresh` is assumed to be a non-empty token with no
surrounding whitespace, as `secrets.token_urlsafe` guarantees (URL-safe
base64 alphabet). -/
theorem load_or_create_token_idempotent (stored : Option String)
    (fresh fresh2 : String) (hstr : pyStrip fresh = fresh) (hne : fresh ≠ "") :
    (∀ s, stored = some s → pyStrip s ≠ "" →
        loadOrCreateAuthToken stored fresh = (pyStrip s, some s)) ∧
    ((stored = none ∨ ∃ s, stored = some s ∧ pyStrip s = "") →
        loadOrCreateAuthToken stored fresh = (fresh, some (fresh ++ "\n"))) ∧
    loadOrCreateAuthToken (loadOrCreateAuthToken stored fresh).2 fresh2 =
      loadOrCreateAuthToken stored fresh := by
  refine ⟨?_, ?_, ?_⟩
  · intro s hs hnz
    subst hs
    simp [loadOrCreateAuthToken, hnz]
  · intro h
    rcases h with h | ⟨s, hs, hz⟩
    · subst h; simp [loadOrCreateAuthToken]
    · subst hs; simp [loadOrCreateAuthToken, hz]
  · cases stored with
    | none =>
        have h2 : pyStrip (fresh ++ "\n") = fresh := by
          rw [pyStrip_append_newline, hstr]
        simp [loadOrCreateAuthToken, h2, hne]
    | some s =>
        by_cases hz : pyStrip s = ""
        · have h2 : pyStrip (fresh ++ "\n") = fresh := by
            rw [pyStrip_append_newline, hstr]
          simp [loadOrCreateAuthToken, hz, h2, hne]
        · simp [loadOrCreateAuthToken, hz]

/-- Witness for C5: a persisted file containing " tok \n" keeps yielding
"tok"; a missing file persists the fresh token and a second startup
returns it unchanged. -/
theorem load_or_create_token_idempotent_app :
    loadOrCreateAuthToken (some " tok \n") "fresh1" = ("tok", some " tok \n") ∧
    loadOrCreateAuthToken none "fresh1" = ("fresh1", some "fresh1\n") ∧
    loadOrCreateAuthToken (loadOrCreateAuthToken none "fresh1").2 "fresh2" =
      loadOrCreateAuthToken none "fresh1" := by
  refine ⟨?_, ?_, ?_⟩
  · have h := (load_or_create_token_idempotent (some " tok \n") "fresh1" "x"
      (by decide) (by decide)).1 " tok \n" rfl (by decide)
    have e : pyStrip " tok \n" = "tok" := by decide
    rw [e] at h
    exact h
  · have h := (load_or_create_token_idempotent none "fresh1" "x"
      (by decide) (by decide)).2.1 (Or.inl rfl)
    simpa using h
  · exact (load_or_create_token_idempotent none "fresh1" "fresh2"
      (by decide) (by decide)).2.2

/-! ## `AppleTranscriptCleaner` (apple_transcript_cleaner.py) -/

/-- AppleTranscriptCleaner state as constructed by `__init__` (lines
23-26): it stores the cleanup instructions and nothing else (the
availability state starts unknown and holds no dictionary terms). -/
structure AppleTranscriptCleanerState where
  instructions : String

/-- AppleTranscriptCleaner.__init__: stores only the instruction string. -/
def appleTranscriptCleanerInit (instructions : String) :
    AppleTranscriptCleanerState :=
  { instructions := instructions }

/-- The fixed instructional prompt composed by `clean` (lines 41-59), up
to and including "Raw transcript:\n"; the stripped transcript is appended
to it by the f-string. -/
def cleanupPromptRules : String :=
  "You are a transcript cleanup engine.\n" ++
  "Apply these rules in order:\n" ++
  "1) Remove filler words, stutters, and false starts.\n" ++
  "2) If the speaker revises/retracts earlier content, keep only the final surviving intent.\n" ++
  "3) If two statements conflict, the latest statement wins.\n" ++
  "4) Never include discarded alternatives together with the final choice.\n" ++
  "5) Keep decisive correction cues (e.g. 'actually', 'wait', 'no', 'instead') as signals and resolve to the final choice.\n" ++
  "6) If no cleanup is needed, return the input unchanged.\n" ++
  "7) Keep original language and tone, and do not add information.\n" ++
  "8) Return only the final cleaned text.\n" ++
  "Example:\n" ++
  "Raw: We shipped it. Actually, no, not shipped yet.\n" ++
  "Cleaned: It's not shipped yet.\n" ++
  "Example:\n" ++
  "Raw: Use Rust. Wait, use Python.\n" ++
  "Cleaned: Use Python.\n" ++
  "Raw transcript:\n"

/-- The prompt `clean` sends to the external session for a given
(already stripped) transcript. -/
def buildCleanupPrompt (text : String) : String :=
  cleanupPromptRules ++ text

/-- AppleTranscriptCleaner.clean (lines 28-68).  `available` is the cached
outcome of `_ensure_model`; `sessionRaises` models an exception from the
`LanguageModelSession` constructor (the only statement of `clean` outside
its try/except once the model is available); `respond` is the external
session call, whose exception path is the `.error` case. -/
def appleCleanerClean (available : Bool) (sessionRaises : Bool)
    (respond : String → Except String String) (transcript : String) :
    Except String String :=
  let text := pyStrip transcript
  if text = "" then .ok text
  else if !available then .ok text
  else if sessionRaises then .error "LanguageModelSession raised"
  else match respond (buildCleanupPrompt text) with
    | .error _ => .ok text
    | .ok result =>
        let cleaned := pyStrip result
        .ok (if cleaned = "" then text else cleaned)

/-! ## `ASRService.transcribe` (service.py lines 63-148) -/

/-- The per-call artifact names deleted by
`ASRService._cleanup_temp_files`: the saved input audio file and the four
output names derived from the per-call base.  `Path.with_suffix` appends
the extension here because the final path component
`transcript-<uuid4>` contains no dot. -/
def artifactPaths (tmpAudioPath outBase : String) : List String :=
  [tmpAudioPath,
   outBase ++ ".txt",
   outBase ++ ".json",
   outBase ++ ".srt",
   outBase ++ ".vtt"]

/-- `path.unlink(missing_ok=True)`: remove every entry with that name;
removing a missing file is a no-op.  An OS-level refusal to unlink (the
swallowed-and-logged except branch in `_cleanup_temp_files`) is an
environment fault the file-list model does not produce. -/
def unlinkMissingOk (fs : List String) (p : String) : List String :=
  fs.filter (fun q => !(q == p))

/-- ASRService._cleanup_temp_files (lines 135-148): unlink each artifact
path in order. -/
def cleanupTempFiles (tmpAudioPath outBase : String) (fs : List String) :
    List String :=
  (artifactPaths tmpAudioPath outBase).foldl unlinkMissingOk fs

/-- The output files `generate_transcription` may leave behind under the
per-call base: any subset of the four known extensions (the txt output is
requested; the others are possible side outputs). -/
def providerOutputFiles (b1 b2 b3 b4 : Bool) (outBase : String) :
    List String :=
  (if b1 then [outBase ++ ".txt"] else []) ++
  (if b2 then [outBase ++ ".json"] else []) ++
  (if b3 then [outBase ++ ".srt"] else []) ++
  (if b4 then [outBase ++ ".vtt"] else [])

/-- ASRService._postprocess_transcript (lines 110-117): skip when no
cleaner is configured or the text is empty; otherwise run the cleaner and
swallow any exception, returning the input text. -/
def postprocessTranscript (cleaner : Option (String → Except String String))
    (text : String) : String :=
  match cleaner with
  | none => text
  | some clean =>
      if text = "" then text
      else match clean text with
        | .ok cleaned => cleaned
        | .error _ => text

/-- ASRService.transcribe (lines 63-102) acting on the scratch file
system `fs` (a list of existing path names).  `modelLoaded` is
`self._model is not None`; `tmpAudioPath` is the name
`_save_upload_to_temp_sync` creates; `outBase` is
`temp_dir/transcript-<uuid4>`; `b1..b4` choose which output files the
provider leaves behind; `providerResult` is the `_transcribe_sync`
outcome carrying the optional `text` attribute of its result; `cleaner`
is `transcript_cleaner.clean` (possibly raising).  Returns the
transcribed text (or the propagated exception) and the resulting file
system; the `finally` block runs `cleanupTempFiles` on every path out of
the `try`. -/
def transcribe (modelLoaded : Bool) (fs : List String)
    (tmpAudioPath outBase : String) (b1 b2 b3 b4 : Bool)
    (providerResult : Except String (Option String))
    (cleaner : Option (String → Except String String)) :
    Except String String × List String :=
  if !modelLoaded then (.error "model not loaded", fs)
  else
    let fs1 := tmpAudioPath :: fs
    let fs2 := providerOutputFiles b1 b2 b3 b4 outBase ++ fs1
    match providerResult with
    | .error e => (.error e, cleanupTempFiles tmpAudioPath outBase fs2)
    | .ok textOpt =>
        let rawText := pyStrip (textOpt.getD "")
        let text := postprocessTranscript cleaner rawText
        (.ok text, cleanupTempFiles tmpAudioPath outBase fs2)

theorem foldl_unlink (L : List String) :
    ∀ fs : List String,
      L.foldl unlinkMissingOk fs =
        fs.filter (fun q => !(L.any (fun p => q == p))) := by
  induction L with
  | nil => intro fs; simp [List.foldl]
  | cons x L ih =>
      intro fs
      rw [List.foldl_cons, ih]
      unfold unlinkMissingOk
      rw [List.filter_filter]
      apply List.filter_congr
      intro q _
      simp [Bool.not_or, Bool.and_comm]

/-- C1: on every exit path of a `transcribe` call with the model loaded —
success, provider error, and cleanup (postprocess) error, the latter two
covered by the universally quantified `providerResult` and `cleaner` —
the resulting file system is exactly the initial one with every
artifact-named entry removed: the saved input audio file and the per-call
output base with .txt, .json, .srt and .vtt extensions (all files created
during the call, and nothing else) are gone before the call returns or
propagates. -/
theorem transcribe_removes_all_artifacts (fs : List String)
    (tmp ob : String) (b1 b2 b3 b4 : Bool)
    (prov : Except String (Option String))
    (cleaner : Option (String → Except String String)) :
    (transcribe true fs tmp ob b1 b2 b3 b4 prov cleaner).2 =
      fs.filter (fun q => !((artifactPaths tmp ob).any (fun p => q == p))) := by
  have hmain :
      cleanupTempFiles tmp ob
          (providerOutputFiles b1 b2 b3 b4 ob ++ tmp :: fs) =
        fs.filter (fun q => !((artifactPaths tmp ob).any (fun p => q == p))) := by
    rw [cleanupTempFiles, foldl_unlink, List.filter_append, List.filter_cons]
    have htmp :
        (!((artifactPaths tmp ob).any (fun p => tmp == p))) = false := by
      simp [artifactPaths]
    rw [htmp]
    have hP :
        (providerOutputFiles b1 b2 b3 b4 ob).filter
            (fun q => !((artifactPaths tmp ob).any (fun p => q == p))) = [] := by
      cases b1 <;> cases b2 <;> cases b3 <;> cases b4 <;>
        simp [providerOutputFiles, artifactPaths, List.filter]
    rw [hP]
    simp
  unfold transcribe
  cases prov with
  | error e => simpa using hmain
  | ok textOpt => simpa using hmain

/-- C2: a cleanup-step failure is swallowed.  If the configured cleaner
raises on its input, `_postprocess_transcript` returns that input
unchanged, and `transcribe` returns the (trimmed) raw provider text as a
successful result rather than failing. -/
theorem cleanup_failure_returns_raw (fs : List String) (tmp ob : String)
    (b1 b2 b3 b4 : Bool) (textOpt : Option String)
    (clean : String → Except String String) :
    (∀ t e, clean t = Except.error e →
        postprocessTranscript (some clean) t = t) ∧
    (∀ e, clean (pyStrip (textOpt.getD "")) = Except.error e →
        (transcribe true fs tmp ob b1 b2 b3 b4 (Except.ok textOpt)
            (some clean)).1 =
          Except.ok (pyStrip (textOpt.getD ""))) := by
  have hpost : ∀ t e, clean t = Except.error e →
      postprocessTranscript (some clean) t = t := by
    intro t e h
    unfold postprocessTranscript
    by_cases ht : t = ""
    · simp [ht]
    · simp [ht, h]
  refine ⟨hpost, ?_⟩
  intro e h
  unfold transcribe
  simp [hpost _ _ h]

/-- Witness for C2: a cleaner that always raises leaves the raw text
untouched and `transcribe` still succeeds with the trimmed provider
output. -/
theorem cleanup_failure_returns_raw_app :
    postprocessTranscript (some (fun _ => Except.error "boom")) "raw text" =
      "raw text" ∧
    (transcribe true [] "tmp.wav" "out" false false false false
        (Except.ok (some " hi there "))
        (some (fun _ => Except.error "boom"))).1 = Except.ok "hi there" := by
  have h := cleanup_failure_returns_raw [] "tmp.wav" "out" false false false
    false (some " hi there ") (fun _ => Except.error "boom")
  refine ⟨h.1 "raw text" "boom" rfl, ?_⟩
  have h2 := h.2 "boom" rfl
  have e : pyStrip ((some " hi there ").getD "") = "hi there" := by decide
  rw [e] at h2
  exact h2

/-- Counterexample for C3 as stated: when the external capability is
unavailable, `clean` does not return the input unchanged — for the input
" a " it returns the trimmed "a". -/
theorem clean_unavailable_counterexample :
    appleCleanerClean false false (fun _ => Except.ok "ignored") " a " =
      Except.ok "a" ∧
    appleCleanerClean false false (fun _ => Except.ok "ignored") " a " ≠
      Except.ok " a " := by
  constructor
  · decide
  · decide

/-- C3 amended: `clean` returns the TRIMMED input text (identical to the
input only when the input carries no surrounding whitespace) in every
degraded case — input empty after trimming, capability unavailable,
external call raising, external call returning an empty result. -/
theorem clean_returns_trimmed_input (avail sr : Bool)
    (respond : String → Except String String) (t : String) :
    (pyStrip t = "" → appleCleanerClean avail sr respond t =
      Except.ok (pyStrip t)) ∧
    (appleCleanerClean false sr respond t = Except.ok (pyStrip t)) ∧
    (∀ e, respond (buildCleanupPrompt (pyStrip t)) = Except.error e →
        appleCleanerClean true false respond t = Except.ok (pyStrip t)) ∧
    (∀ r, respond (buildCleanupPrompt (pyStrip t)) = Except.ok r →
        pyStrip r = "" →
        appleCleanerClean true false respond t = Except.ok (pyStrip t)) := by
  refine ⟨?_, ?_, ?_, ?_⟩
  · intro h
    simp [appleCleanerClean, h]
  · by_cases h : pyStrip t = ""
    · simp [appleCleanerClean, h]
    · simp [appleCleanerClean, h]
  · intro e he
    by_cases h : pyStrip t = ""
    · simp [appleCleanerClean, h]
    · simp [appleCleanerClean, h, he]
  · intro r hr hz
    by_cases h : pyStrip t = ""
    · simp [appleCleanerClean, h]
    · simp [appleCleanerClean, h, hr, hz]

/-- Witness for C3 (amended): concrete degraded runs all return the
trimmed input. -/
theorem clean_returns_trimmed_input_app :
    appleCleanerClean true false (fun _ => Except.error "down") " a " =
      Except.ok "a" ∧
    appleCleanerClean true false (fun _ => Except.ok "  ") " a " =
      Except.ok "a" ∧
    appleCleanerClean false false (fun _ => Except.ok "x") "  " =
      Except.ok "" := by
  refine ⟨?_, ?_, ?_⟩
  · have h := (clean_returns_trimmed_input true false
      (fun _ => Except.error "down") " a ").2.2.1 "down" rfl
    have e : pyStrip " a " = "a" := by decide
    rw [e] at h
    exact h
  · have h := (clean_returns_trimmed_input true false
      (fun _ => Except.ok "  ") " a ").2.2.2 "  " rfl (by decide)
    have e : pyStrip " a " = "a" := by decide
    rw [e] at h
    exact h
  · have h := (clean_returns_trimmed_input false false
      (fun _ => Except.ok "x") "  ").1 (by decide)
    have e : pyStrip "  " = "" := by decide
    rw [e] at h
    simpa [e] using h

theorem appleCleanerClean_ok_stripped (avail sr : Bool)
    (respond : String → Except String String) (t c : String)
    (h : appleCleanerClean avail sr respond t = Except.ok c) :
    pyStrip c = c := by
  unfold appleCleanerClean at h
  by_cases hz : pyStrip t = ""
  · simp [hz] at h
    subst h
    decide
  · simp only [hz, if_neg hz, if_false] at h
    cases avail with
    | false =>
        simp at h
        subst h
        exact pyStrip_idem t
    | true =>
        cases sr with
        | true => simp at h
        | false =>
            simp at h
            cases hr : respond (buildCleanupPrompt (pyStrip t)) with
            | error e =>
                rw [hr] at h
                simp at h
                subst h
                exact pyStrip_idem t
            | ok r =>
                rw [hr] at h
                simp at h
                by_cases hc : pyStrip r = ""
                · simp [hc] at h
                  subst h
                  exact pyStrip_idem t
                · simp [hc] at h
                  subst h
                  exact pyStrip_idem r

/-- C10: every successful result of `transcribe` is trimmed.  The raw
provider output is stripped before postprocessing, and with the Apple
cleaner in place every outcome — cleaner absent (`none`), unavailable,
session failure, external-call failure, empty external result, or a
successful cleanup — yields a string without leading or trailing
whitespace. -/
theorem transcribe_result_trimmed (fs : List String) (tmp ob : String)
    (b1 b2 b3 b4 : Bool) (textOpt : Option String) (avail sr : Bool)
    (respond : String → Except String String) :
    (∀ t, (transcribe true fs tmp ob b1 b2 b3 b4 (Except.ok textOpt)
        none).1 = Except.ok t → pyStrip t = t) ∧
    (∀ t, (transcribe true fs tmp ob b1 b2 b3 b4 (Except.ok textOpt)
        (some (appleCleanerClean avail sr respond))).1 = Except.ok t →
      pyStrip t = t) := by
  constructor
  · intro t h
    unfold transcribe postprocessTranscript at h
    simp at h
    subst h
    exact pyStrip_idem _
  · intro t h
    unfold transcribe postprocessTranscript at h
    simp at h
    by_cases hz : pyStrip (textOpt.getD "") = ""
    · rw [if_pos hz] at h
      subst h
      exact pyStrip_idem _
    · rw [if_neg hz] at h
      cases hr : appleCleanerClean avail sr respond (pyStrip (textOpt.getD "")) with
      | error e =>
          rw [hr] at h
          subst h
          exact pyStrip_idem _
      | ok c =>
          rw [hr] at h
          subst h
          exact appleCleanerClean_ok_stripped avail sr respond _ _ hr

/-- Witness for C10: a concrete transcription whose cleaner succeeds with
" y " yields the trimmed result "y". -/
theorem transcribe_result_trimmed_app : pyStrip "y" = "y" :=
  (transcribe_result_trimmed [] "tmp.wav" "out" false false false false
      (some " x ") true false (fun _ => Except.ok " y ")).2 "y" (by decide)

/-! ## Health endpoint (router.py 15-17, schemas.py 6-8, dependencies.py) -/

/-- schemas.HealthResponse: `status: str = "ok"`, `model: str`. -/
structure HealthResponse where
  status : String
  model : String
deriving DecidableEq

/-- The slice of ASRService state the health path reads: `model_id` and
whether `_model` is loaded (`is_ready`). -/
structure ASRServiceView where
  modelId : String
  modelLoaded : Bool

/-- dependencies.get_asr_service: 503 when the app holds no service or the
service is not ready. -/
def getASRService (svc : Option ASRServiceView) : Except Nat ASRServiceView :=
  match svc with
  | none => .error 503
  | some s => if s.modelLoaded then .ok s else .error 503

/-- router.health: `HealthResponse(model=service.model_id)` with the
schema's default status "ok". -/
def health (svc : ASRServiceView) : HealthResponse :=
  { status := "ok", model := svc.modelId }

/-- GET /health including the readiness dependency. -/
def healthEndpoint (svc : Option ASRServiceView) : Except Nat HealthResponse :=
  (getASRService svc).map health

/-- Counterexample for C8 as stated: with a ready service whose
`model_id` is "m", the health endpoint returns the model string "m"
verbatim, which is not of the form "<provider_name>:<model_id>" (it
contains no colon at all): the router has no provider name to combine. -/
theorem health_provider_prefix_counterexample :
    healthEndpoint (some { modelId := "m", modelLoaded := true }) =
      Except.ok { status := "ok", model := "m" } ∧
    ¬ ∃ p q : String, "m" = p ++ ":" ++ q := by
  constructor
  · rfl
  · rintro ⟨p, q, h⟩
    have hd : ("m" : String).data = p.data ++ (":" : String).data ++ q.data := by
      rw [h]
      simp [String.data_append]
    have hmem : (':' : Char) ∈ ("m" : String).data := by
      rw [hd]
      simp
    exact absurd hmem (by decide)

/-- C8 amended: when the orchestrator is ready, GET /health returns
status "ok" and the service's `model_id` verbatim as the model string
(no provider-name prefix); when the service is missing or not ready the
endpoint fails with 503. -/
theorem health_returns_model_id (svc : ASRServiceView) (m : String) :
    healthEndpoint (some { modelId := m, modelLoaded := true }) =
      Except.ok { status := "ok", model := m } ∧
    healthEndpoint none = Except.error 503 ∧
    healthEndpoint (some { modelId := m, modelLoaded := false }) =
      Except.error 503 ∧
    health svc = { status := "ok", model := svc.modelId } :=
  ⟨rfl, rfl, rfl, rfl⟩

/-! ## C9: dictionary terms in the cleanup prompt -/

/-- Substring test on character lists. -/
def listHasSub (pat : List Char) : List Char → Bool
  | [] => pat.isEmpty
  | c :: cs => pat.isPrefixOf (c :: cs) || listHasSub pat cs

/-- Substring test on strings: does `s` contain `pat`? -/
def strContainsSub (s pat : String) : Bool :=
  listHasSub pat.data s.data

set_option maxRecDepth 40000 in
/-- C9 (code bug): the cleaner constructor stores only the instruction
string — it accepts no dictionary terms, although `main.py` passes
`user_dictionary_terms=` (a `TypeError` at startup when cleanup is
enabled) — and the instructional prompt composed by `clean` contains no
rule about canonical dictionary spellings (no form of the word
"dictionary" occurs in it). -/
theorem clean_prompt_lacks_dictionary_rule (instr : String) :
    (appleTranscriptCleanerInit instr).instructions = instr ∧
    strContainsSub (buildCleanupPrompt "We shipped it") "dictionar" = false :=
  ⟨rfl, by decide⟩

/-! ## WhisperKit remote provider response handling (providers.py 128-179) -/

/-- Consume an expected literal from the front of a character list,
returning the remainder on a match. -/
def dropPre : List Char → List Char → Option (List Char)
  | [], cs => some cs
  | _ :: _, [] => none
  | p :: ps, c :: cs => if p == c then dropPre ps cs else none

/-- Python values produced by `json.loads` (restricted to the JSON subset
the endpoint exchanges: null, booleans, integers, strings, arrays,
objects). -/
inductive PyJson where
  | null
  | boolean (b : Bool)
  | num (n : Int)
  | str (s : String)
  | arr (items : List PyJson)
  | obj (entries : List (String × PyJson))

/-- JSON whitespace skipping. -/
def skipWs (cs : List Char) : List Char :=
  cs.dropWhile (fun c => c == ' ' || c == '\t' || c == '\n' || c == '\r')

/-- Read a JSON string body up to the closing quote (escape sequences are
not needed for the payloads modelled here). -/
def readJsonStringChars : List Char → Option (List Char × List Char)
  | [] => none
  | c :: rest =>
      if c == '"' then some ([], rest)
      else (readJsonStringChars rest).map (fun p => (c :: p.1, p.2))

def readJsonString (cs : List Char) : Option (String × List Char) :=
  (readJsonStringChars cs).map (fun p => (String.mk p.1, p.2))

/-- Read a JSON integer literal. -/
def readJsonInt (cs : List Char) : Option (PyJson × List Char) :=
  let negAndRest : Bool × List Char :=
    match cs with
    | '-' :: r => (true, r)
    | _ => (false, cs)
  let digits := negAndRest.2.takeWhile Char.isDigit
  let rest := negAndRest.2.dropWhile Char.isDigit
  if digits.isEmpty then none
  else
    let n : Nat := digits.foldl (fun acc c => acc * 10 + (c.toNat - 48)) 0
    some (PyJson.num (if negAndRest.1 then -(n : Int) else (n : Int)), rest)

mutual

/-- Recursive-descent JSON value reader (fuel-indexed). -/
def parseJsonValue : Nat → List Char → Option (PyJson × List Char)
  | 0, _ => none
  | fuel + 1, cs0 =>
    match skipWs cs0 with
    | [] => none
    | c :: rest =>
      if c == '"' then
        (readJsonString rest).map (fun p => (PyJson.str p.1, p.2))
      else if c == 'n' then
        (dropPre "ull".data rest).map (fun r => (PyJson.null, r))
      else if c == 't' then
        (dropPre "rue".data rest).map (fun r => (PyJson.boolean true, r))
      else if c == 'f' then
        (dropPre "alse".data rest).map (fun r => (PyJson.boolean false, r))
      else if c == '\x7b' then
        match skipWs rest with
        | '\x7d' :: r2 => some (PyJson.obj [], r2)
        | cs1 => (parseJsonMembers fuel cs1).map (fun p => (PyJson.obj p.1, p.2))
      else if c == '[' then
        match skipWs rest with
        | ']' :: r2 => some (PyJson.arr [], r2)
        | cs1 => (parseJsonItems fuel cs1).map (fun p => (PyJson.arr p.1, p.2))
      else
        readJsonInt (c :: rest)

/-- Object members reader. -/
def parseJsonMembers : Nat → List Char → Option (List (String × PyJson) × List Char)
  | 0, _ => none
  | fuel + 1, cs =>
    match skipWs cs with
    | '"' :: rest =>
      match readJsonString rest with
      | none => none
      | some (key, r1) =>
        match skipWs r1 with
        | ':' :: r2 =>
          match parseJsonValue fuel r2 with
          | none => none
          | some (v, r3) =>
            match skipWs r3 with
            | ',' :: r4 =>
                (parseJsonMembers fuel r4).map (fun p => ((key, v) :: p.1, p.2))
            | '\x7d' :: r4 => some ([(key, v)], r4)
            | _ => none
        | _ => none
    | _ => none

/-- Array items reader. -/
def parseJsonItems : Nat → List Char → Option (List PyJson × List Char)
  | 0, _ => none
  | fuel + 1, cs =>
    match parseJsonValue fuel cs with
    | none => none
    | some (v, r1) =>
      match skipWs r1 with
      | ',' :: r2 => (parseJsonItems fuel r2).map (fun p => (v :: p.1, p.2))
      | ']' :: r2 => some ([v], r2)
      | _ => none

end

/-- Python `json.loads`: parse one value and require only whitespace to
remain; any parse failure is the `JSONDecodeError` path. -/
def jsonLoads (s : String) : Option PyJson :=
  match parseJsonValue (s.length + 1) s.data with
  | none => none
  | some (v, rest) => if (skipWs rest).isEmpty then some v else none

/-- Python `dict.get`: the value of the last binding of the key (later
duplicate keys in a JSON object override earlier ones). -/
def pyDictGet (entries : List (String × PyJson)) (key : String) :
    Option PyJson :=
  match entries with
  | [] => none
  | (k, v) :: rest =>
    match pyDictGet rest key with
    | some v2 => some v2
    | none => if k == key then some v else none

mutual

/-- Python `repr`/f-string rendering of a `json.loads` result, as it
appears in the missing-text error message. -/
def pyRepr : PyJson → String
  | PyJson.null => "None"
  | PyJson.boolean b => if b then "True" else "False"
  | PyJson.num n => toString n
  | PyJson.str s => "'" ++ s ++ "'"
  | PyJson.arr items => "[" ++ pyReprItems items ++ "]"
  | PyJson.obj entries => "\x7b" ++ pyReprEntries entries ++ "\x7d"

def pyReprItems : List PyJson → String
  | [] => ""
  | [v] => pyRepr v
  | v :: rest => pyRepr v ++ ", " ++ pyReprItems rest

def pyReprEntries : List (String × PyJson) → String
  | [] => ""
  | [(k, v)] => "'" ++ k ++ "': " ++ pyRepr v
  | (k, v) :: rest => "'" ++ k ++ "': " ++ pyRepr v ++ ", " ++ pyReprEntries rest

end

/-- Python slice `s[:n]`. -/
def strTake (s : String) (n : Nat) : String :=
  String.mk (s.data.take n)

/-- Outcome of `urlopen` + `response.read().decode(...)`: an HTTPError
with status code and error body, a URLError with a reason, or a decoded
response body. -/
inductive HttpOutcome where
  | httpError (code : Nat) (body : String)
  | urlError (reason : String)
  | ok (body : String)

/-- Response classification of WhisperKitTranscriber._transcribe_sync
(providers.py lines 155-179): non-2xx raises with the status code and the
first 400 characters of the error body; URLError raises with the reason;
a non-JSON body raises with its first 400 characters; a JSON payload that
is not a dict raises `AttributeError` (it has no `.get`); a dict without
a string `text` raises the missing-text message; otherwise the trimmed
`text` is returned. -/
def transcribeSyncResponse (resp : HttpOutcome) : Except String String :=
  match resp with
  | .httpError code errorBody =>
      .error ("WhisperKit request failed (" ++ toString code ++ "): " ++
        strTake errorBody 400)
  | .urlError reason =>
      .error ("WhisperKit request failed: " ++ reason)
  | .ok responseText =>
      match jsonLoads responseText with
      | none =>
          .error ("WhisperKit returned non-JSON response: " ++
            strTake responseText 400)
      | some (PyJson.obj entries) =>
          match pyDictGet entries "text" with
          | some (PyJson.str t) => .ok (pyStrip t)
          | _ =>
              .error ("WhisperKit response missing 'text': " ++
                pyRepr (PyJson.obj entries))
      | some payload =>
          .error ("AttributeError: " ++ pyRepr payload ++ " has no attribute get")

/-- C7: the remote provider's failure classification.  A non-2xx HTTP
response raises with the status code and the first 400 characters of the
response body; the body "not json" raises the invalid-JSON message; the
JSON body without a `text` field raises the missing-text message; a JSON
object carrying a string `text` yields the trimmed text. -/
theorem whisperkit_error_mapping (code : Nat)
    (errorBody responseText : String)
    (entries : List (String × PyJson)) (t : String) :
    (transcribeSyncResponse (HttpOutcome.httpError code errorBody) =
      Except.error ("WhisperKit request failed (" ++ toString code ++ "): " ++
        strTake errorBody 400)) ∧
    (transcribeSyncResponse (HttpOutcome.ok "not json") =
      Except.error "WhisperKit returned non-JSON response: not json") ∧
    (transcribeSyncResponse (HttpOutcome.ok "\x7b\"other\": 1\x7d") =
      Except.error "WhisperKit response missing 'text': \x7b'other': 1\x7d") ∧
    (jsonLoads responseText = some (PyJson.obj entries) →
      pyDictGet entries "text" = some (PyJson.str t) →
      transcribeSyncResponse (HttpOutcome.ok responseText) =
        Except.ok (pyStrip t)) := by
  refine ⟨rfl, by decide, by decide, ?_⟩
  intro hload hget
  simp only [transcribeSyncResponse, hload, hget]

/-- Witness for C7: a successful JSON response with `text` " hi " yields
the trimmed "hi". -/
theorem whisperkit_error_mapping_app :
    transcribeSyncResponse (HttpOutcome.ok "\x7b\"text\": \" hi \"\x7d") =
      Except.ok "hi" := by
  have h := (whisperkit_error_mapping 500 "oops" "\x7b\"text\": \" hi \"\x7d"
    [("text", PyJson.str " hi ")] " hi ").2.2.2 rfl rfl
  have e : pyStrip " hi " = "hi" := by decide
  rw [e] at h
  exact h

/-! ## `_build_multipart_body` (providers.py lines 182-211) -/

/-- The field loop of `_build_multipart_body`: for each (name, value) the
source extends the body with `--boundary\r\n`, the Content-Disposition
line, a blank line, the value, and `\r\n`.  Byte strings are modelled as
Lean strings (UTF-8 encoding is the identity on the ASCII payloads
exchanged here). -/
def fieldPartsString (boundary : String) : List (String × String) → String
  | [] => ""
  | (n, v) :: rest =>
    "--" ++ boundary ++ "\r\n" ++
    "Content-Disposition: form-data; name=\"" ++ n ++ "\"\r\n\r\n" ++
    v ++ "\r\n" ++ fieldPartsString boundary rest

/-- `_build_multipart_body`: the text fields, then the file part with its
filename and Content-Type headers, then the closing delimiter; returns
the body and the `multipart/form-data` content type carrying the
freshly generated boundary `----open-whisper-<uuid4().hex>`. -/
def buildMultipartBody (fields : List (String × String))
    (fileFieldName fileName fileContentType fileBytes uuidHex : String) :
    String × String :=
  let boundary := "----open-whisper-" ++ uuidHex
  let body :=
    fieldPartsString boundary fields ++
    "--" ++ boundary ++ "\r\n" ++
    "Content-Disposition: form-data; name=\"" ++ fileFieldName ++
      "\"; filename=\"" ++ fileName ++ "\"\r\n" ++
    "Content-Type: " ++ fileContentType ++ "\r\n\r\n" ++
    fileBytes ++ "\r\n" ++
    "--" ++ boundary ++ "--\r\n"
  (body, "multipart/form-data; boundary=" ++ boundary)

/-! A standard multipart/form-data reader, modelled from the spec:
"the constructed body, when parsed by a standard multipart reader [using
the returned boundary], yields exactly those field values and the
original file bytes under field name `file`".  It consumes the leading
`--boundary`, then for each part a CRLF, the header block up to the
blank line, and the content up to the next `\r\n--boundary` delimiter,
stopping at the closing `--` + CRLF; field names are read from the
`Content-Disposition` header. -/

/-- Scan for the first occurrence of `pat`, returning the text before it
and the text after it. -/
def takeUntilPat (pat : List Char) : List Char → Option (List Char × List Char)
  | [] =>
      match dropPre pat [] with
      | some rest => some ([], rest)
      | none => none
  | c :: cs =>
      match dropPre pat (c :: cs) with
      | some rest => some ([], rest)
      | none => (takeUntilPat pat cs).map (fun p => (c :: p.1, p.2))

/-- One part of a multipart body: header block and raw content. -/
def parseParts (boundary : List Char) :
    Nat → List Char → Option (List (List Char × List Char))
  | 0, _ => none
  | fuel + 1, cs =>
    match dropPre "--\r\n".data cs with
    | some rest => if rest.isEmpty then some [] else none
    | none =>
      match dropPre "\r\n".data cs with
      | none => none
      | some cs1 =>
        match takeUntilPat "\r\n\r\n".data cs1 with
        | none => none
        | some (hdr, cs2) =>
          match takeUntilPat ("\r\n--".data ++ boundary) cs2 with
          | none => none
          | some (content, cs3) =>
            match parseParts boundary fuel cs3 with
            | none => none
            | some rest => some ((hdr, content) :: rest)

/-- Parse a whole multipart body: consume `--boundary`, then the parts. -/
def parseMultipart (boundary : List Char) (body : List Char) :
    Option (List (List Char × List Char)) :=
  match dropPre ("--".data ++ boundary) body with
  | none => none
  | some rest => parseParts boundary (body.length + 1) rest

/-- Extract the field name from a part's Content-Disposition header. -/
def partFieldName (hdr : List Char) : Option (List Char) :=
  match dropPre "Content-Disposition: form-data; name=\"".data hdr with
  | none => none
  | some r => (takeUntilPat ['"'] r).map Prod.fst

/-- Pair every parsed part's field name with its content. -/
def extractNames : List (List Char × List Char) →
    Option (List (String × String))
  | [] => some []
  | (hdr, content) :: rest =>
    match partFieldName hdr with
    | none => none
    | some nm =>
        (extractNames rest).map (fun r => (String.mk nm, String.mk content) :: r)

/-- Recover the boundary from the returned content-type header value. -/
def boundaryFromContentType (ctype : String) : Option (List Char) :=
  dropPre "multipart/form-data; boundary=".data ctype.data

/-- The whole reader: boundary from the returned content type, then the
parts of the body, then the field names. -/
def parseFormData (ctype : String) (body : String) :
    Option (List (String × String)) :=
  match boundaryFromContentType ctype with
  | none => none
  | some b => (parseMultipart b body.data).bind extractNames

theorem dropPre_append (p r : List Char) : dropPre p (p ++ r) = some r := by
  induction p with
  | nil => rfl
  | cons c cs ih => simp [dropPre, ih]

theorem dropPre_of_eq (pat input rest : List Char) (h : input = pat ++ rest) :
    dropPre pat input = some rest := by
  rw [h]
  exact dropPre_append pat rest

theorem dropPre_none_append (pat : List Char) :
    ∀ (w rest : List Char), dropPre pat w = none →
      pat.length ≤ w.length → dropPre pat (w ++ rest) = none := by
  induction pat with
  | nil => intro w rest h _; simp [dropPre] at h
  | cons p ps ih =>
      intro w rest h hlen
      cases w with
      | nil => simp at hlen
      | cons c cs =>
          simp only [dropPre] at h
          simp only [List.cons_append, dropPre]
          by_cases hpc : (p == c) = true
          · simp only [hpc, if_true] at h
            simp only [hpc, if_true]
            exact ih cs rest h (by simpa using hlen)
          · simp [hpc]

theorem takeUntilPat_eq_cons (pat : List Char) (c : Char) (cs : List Char) :
    takeUntilPat pat (c :: cs) =
      match dropPre pat (c :: cs) with
      | some rest => some ([], rest)
      | none => (takeUntilPat pat cs).map (fun p => (c :: p.1, p.2)) := rfl

theorem takeUntilPat_found (p0 : Char) (pt : List Char) :
    ∀ (v rest : List Char), (∀ c ∈ v, (c == p0) = false) →
      takeUntilPat (p0 :: pt) (v ++ ((p0 :: pt) ++ rest)) = some (v, rest) := by
  intro v
  induction v with
  | nil =>
      intro rest _
      rw [List.nil_append, List.cons_append, takeUntilPat_eq_cons]
      have hd : dropPre (p0 :: pt) (p0 :: (pt ++ rest)) = some rest := by
        simp [dropPre, dropPre_append]
      rw [hd]
  | cons c v ih =>
      intro rest hv
      have hcp : (c == p0) = false := hv c (List.mem_cons_self c v)
      have hpc : (p0 == c) = false := by
        rw [beq_eq_false_iff_ne] at hcp ⊢
        exact Ne.symm hcp
      rw [List.cons_append, takeUntilPat_eq_cons]
      have hd : dropPre (p0 :: pt) (c :: (v ++ ((p0 :: pt) ++ rest))) = none := by
        simp [dropPre, hpc]
      rw [hd, ih rest (fun x hx => hv x (List.mem_cons_of_mem c hx))]
      rfl

theorem takeUntilPat_found_no_occ (pat : List Char) (hpat : pat ≠ []) :
    ∀ (v rest : List Char),
      (∀ i, i < v.length → dropPre pat ((v ++ pat).drop i) = none) →
      takeUntilPat pat (v ++ (pat ++ rest)) = some (v, rest) := by
  intro v
  induction v with
  | nil =>
      intro rest _
      obtain ⟨p, pt, rfl⟩ : ∃ p pt, pat = p :: pt := by
        cases pat with
        | nil => exact absurd rfl hpat
        | cons p pt => exact ⟨p, pt, rfl⟩
      rw [List.nil_append, List.cons_append, takeUntilPat_eq_cons]
      have hd : dropPre (p :: pt) (p :: (pt ++ rest)) = some rest := by
        simp [dropPre, dropPre_append]
      rw [hd]
  | cons c v ih =>
      intro rest hno
      have h0 : dropPre pat (c :: (v ++ pat)) = none := by
        have h := hno 0 (by simp)
        simpa using h
      have hlen : pat.length ≤ (c :: (v ++ pat)).length := by
        simp [List.length_append]
        omega
      have hnone : dropPre pat ((c :: (v ++ pat)) ++ rest) = none :=
        dropPre_none_append pat _ rest h0 hlen
      have hform : (c :: (v ++ pat)) ++ rest = c :: (v ++ (pat ++ rest)) := by
        simp [List.append_assoc]
      rw [hform] at hnone
      rw [List.cons_append, takeUntilPat_eq_cons, hnone,
        ih rest (fun i hi => by
          have h := hno (i + 1) (by simpa using Nat.succ_lt_succ hi)
          simpa using h)]
      rfl

theorem takeUntilPat_found_no_occ_of_eq (pat input v rest : List Char)
    (hpat : pat ≠ []) (hin : input = v ++ (pat ++ rest))
    (hno : ∀ i, i < v.length → dropPre pat ((v ++ pat).drop i) = none) :
    takeUntilPat pat input = some (v, rest) := by
  rw [hin]
  exact takeUntilPat_found_no_occ pat hpat v rest hno

theorem takeUntilPat_found_of_eq (p0 : Char) (pt : List Char)
    (input v rest : List Char) (hin : input = v ++ ((p0 :: pt) ++ rest))
    (hv : ∀ c ∈ v, (c == p0) = false) :
    takeUntilPat (p0 :: pt) input = some (v, rest) := by
  rw [hin]
  exact takeUntilPat_found p0 pt v rest hv

theorem parseParts_eq_succ (B : List Char) (fuel : Nat) (cs : List Char) :
    parseParts B (fuel + 1) cs =
      match dropPre "--\r\n".data cs with
      | some rest => if rest.isEmpty then some [] else none
      | none =>
        match dropPre "\r\n".data cs with
        | none => none
        | some cs1 =>
          match takeUntilPat "\r\n\r\n".data cs1 with
          | none => none
          | some (hdr, cs2) =>
            match takeUntilPat ("\r\n--".data ++ B) cs2 with
            | none => none
            | some (content, cs3) =>
              match parseParts B fuel cs3 with
              | none => none
              | some rest => some ((hdr, content) :: rest) := rfl

theorem parseParts_close (B : List Char) (fuel : Nat) :
    parseParts B (fuel + 1) "--\r\n".data = some [] := by
  rw [parseParts_eq_succ]
  have h : dropPre "--\r\n".data "--\r\n".data = some [] := by
    have h0 := dropPre_append "--\r\n".data []
    simpa using h0
  simp [h]

theorem parseParts_step (B : List Char) (fuel : Nat)
    (v content rest : List Char) (parts : List (List Char × List Char))
    (input : List Char)
    (hinput : input = "\r\n".data ++ (v ++ ("\r\n\r\n".data ++
      (content ++ ("\r\n--".data ++ (B ++ rest))))))
    (hvlen : 2 ≤ v.length)
    (hnone : dropPre "--\r\n".data ("\r\n".data ++ v) = none)
    (hno : ∀ i, i < v.length →
      dropPre "\r\n\r\n".data ((v ++ "\r\n\r\n".data).drop i) = none)
    (hcontent : ∀ c ∈ content, (c == '\r') = false)
    (hrec : parseParts B fuel rest = some parts) :
    parseParts B (fuel + 1) input = some ((v, content) :: parts) := by
  have h1 : dropPre "--\r\n".data input = none := by
    have hw : input = ("\r\n".data ++ v) ++
        ("\r\n\r\n".data ++ (content ++ ("\r\n--".data ++ (B ++ rest)))) := by
      rw [hinput]
      simp [List.append_assoc]
    rw [hw]
    apply dropPre_none_append _ _ _ hnone
    have hl : ("--\r\n" : String).data.length = 4 := by decide
    have hl2 : ("\r\n" : String).data.length = 2 := by decide
    simp only [hl, List.length_append, hl2]
    omega
  have h2 : dropPre "\r\n".data input =
      some (v ++ ("\r\n\r\n".data ++ (content ++ ("\r\n--".data ++ (B ++ rest))))) :=
    dropPre_of_eq _ _ _ hinput
  have h3 : takeUntilPat "\r\n\r\n".data
      (v ++ ("\r\n\r\n".data ++ (content ++ ("\r\n--".data ++ (B ++ rest))))) =
      some (v, content ++ ("\r\n--".data ++ (B ++ rest))) :=
    takeUntilPat_found_no_occ_of_eq _ _ _ _ (by decide) rfl hno
  have hpat : ("\r\n--" : String).data ++ B = '\r' :: ("\n--".data ++ B) := by
    have hsplit : ("\r\n--" : String).data = '\r' :: ("\n--" : String).data := by
      decide
    rw [hsplit]
    rfl
  have h4 : takeUntilPat ("\r\n--".data ++ B)
      (content ++ ("\r\n--".data ++ (B ++ rest))) = some (content, rest) := by
    rw [hpat]
    apply takeUntilPat_found_of_eq '\r' ("\n--".data ++ B) _ content rest ?_ hcontent
    rw [← hpat]
    simp [List.append_assoc]
  rw [parseParts_eq_succ]
  simp only [h1, h2, h3, h4, hrec]

theorem parseParts_mono (B : List Char) :
    ∀ f g : Nat, f ≤ g → ∀ cs r, parseParts B f cs = some r →
      parseParts B g cs = some r := by
  intro f
  induction f with
  | zero =>
      intro g _ cs r h
      simp [parseParts] at h
  | succ f ih =>
      intro g hfg cs r h
      cases g with
      | zero => omega
      | succ g =>
          rw [parseParts_eq_succ] at h ⊢
          cases h1 : dropPre "--\r\n".data cs with
          | some rest =>
              simp only [h1] at h ⊢
              exact h
          | none =>
              simp only [h1] at h ⊢
              cases h2 : dropPre "\r\n".data cs with
              | none =>
                  simp only [h2] at h
                  exact Option.noConfusion h
              | some cs1 =>
                  simp only [h2] at h ⊢
                  cases h3 : takeUntilPat "\r\n\r\n".data cs1 with
                  | none =>
                      simp only [h3] at h
                      exact Option.noConfusion h
                  | some p =>
                      obtain ⟨hdr, cs2⟩ := p
                      simp only [h3] at h ⊢
                      cases h4 : takeUntilPat ("\r\n--".data ++ B) cs2 with
                      | none =>
                          simp only [h4] at h
                          exact Option.noConfusion h
                      | some q =>
                          obtain ⟨content, cs3⟩ := q
                          simp only [h4] at h ⊢
                          cases h5 : parseParts B f cs3 with
                          | none =>
                              simp only [h5] at h
                              exact Option.noConfusion h
                          | some ps =>
                              simp only [h5] at h
                              have h6 := ih g (by omega) cs3 ps h5
                              simp only [h6]
                              exact h

/-- Header block of the "model" field part, as it appears between the
part's leading CRLF and the blank line. -/
def mpHdrModel : List Char :=
  ("Content-Disposition: form-data; name=\"model\"" : String).data

/-- Header block of the "response_format" field part. -/
def mpHdrRespFormat : List Char :=
  ("Content-Disposition: form-data; name=\"response_format\"" : String).data

/-- Header block of the "language" field part. -/
def mpHdrLanguage : List Char :=
  ("Content-Disposition: form-data; name=\"language\"" : String).data

/-- Header block of the file part (two header lines). -/
def mpHdrFile : List Char :=
  ("Content-Disposition: form-data; name=\"file\"; filename=\"audio.wav\"\r\nContent-Type: audio/wav" : String).data

set_option maxRecDepth 40000 in
theorem mpStepModel (B : List Char) (fuel : Nat) (rest : List Char)
    (parts : List (List Char × List Char))
    (hrec : parseParts B fuel rest = some parts) :
    parseParts B (fuel + 1)
      ("\r\n".data ++ (mpHdrModel ++ ("\r\n\r\n".data ++ ("m".data ++
        ("\r\n--".data ++ (B ++ rest)))))) =
      some ((mpHdrModel, "m".data) :: parts) :=
  parseParts_step B fuel mpHdrModel "m".data rest parts _ rfl
    (by decide) (by decide) (by decide) (by decide) hrec

set_option maxRecDepth 40000 in
theorem mpStepRespFormat (B : List Char) (fuel : Nat) (rest : List Char)
    (parts : List (List Char × List Char))
    (hrec : parseParts B fuel rest = some parts) :
    parseParts B (fuel + 1)
      ("\r\n".data ++ (mpHdrRespFormat ++ ("\r\n\r\n".data ++ ("json".data ++
        ("\r\n--".data ++ (B ++ rest)))))) =
      some ((mpHdrRespFormat, "json".data) :: parts) :=
  parseParts_step B fuel mpHdrRespFormat "json".data rest parts _ rfl
    (by decide) (by decide) (by decide) (by decide) hrec

set_option maxRecDepth 40000 in
theorem mpStepLanguage (B : List Char) (fuel : Nat) (rest : List Char)
    (parts : List (List Char × List Char))
    (hrec : parseParts B fuel rest = some parts) :
    parseParts B (fuel + 1)
      ("\r\n".data ++ (mpHdrLanguage ++ ("\r\n\r\n".data ++ ("en".data ++
        ("\r\n--".data ++ (B ++ rest)))))) =
      some ((mpHdrLanguage, "en".data) :: parts) :=
  parseParts_step B fuel mpHdrLanguage "en".data rest parts _ rfl
    (by decide) (by decide) (by decide) (by decide) hrec

set_option maxRecDepth 40000 in
theorem mpStepFile (B : List Char) (fuel : Nat) (rest : List Char)
    (parts : List (List Char × List Char))
    (hrec : parseParts B fuel rest = some parts) :
    parseParts B (fuel + 1)
      ("\r\n".data ++ (mpHdrFile ++ ("\r\n\r\n".data ++ ("RIFF...".data ++
        ("\r\n--".data ++ (B ++ rest)))))) =
      some ((mpHdrFile, "RIFF...".data) :: parts) :=
  parseParts_step B fuel mpHdrFile "RIFF...".data rest parts _ rfl
    (by decide) (by decide) (by decide) (by decide) hrec

theorem mpMergeModel (t : List Char) :
    mpHdrModel ++ (("\r\n\r\n" : String).data ++ t) =
    ("Content-Disposition: form-data; name=\"" : String).data ++
      (("model" : String).data ++ (("\"\r\n\r\n" : String).data ++ t)) := by
  have base : mpHdrModel ++ ("\r\n\r\n" : String).data =
      ("Content-Disposition: form-data; name=\"" : String).data ++
        ("model" : String).data ++ ("\"\r\n\r\n" : String).data := by decide
  rw [← List.append_assoc, base]
  simp [List.append_assoc]

theorem mpMergeRespFormat (t : List Char) :
    mpHdrRespFormat ++ (("\r\n\r\n" : String).data ++ t) =
    ("Content-Disposition: form-data; name=\"" : String).data ++
      (("response_format" : String).data ++ (("\"\r\n\r\n" : String).data ++ t)) := by
  have base : mpHdrRespFormat ++ ("\r\n\r\n" : String).data =
      ("Content-Disposition: form-data; name=\"" : String).data ++
        ("response_format" : String).data ++ ("\"\r\n\r\n" : String).data := by
    decide
  rw [← List.append_assoc, base]
  simp [List.append_assoc]

theorem mpMergeLanguage (t : List Char) :
    mpHdrLanguage ++ (("\r\n\r\n" : String).data ++ t) =
    ("Content-Disposition: form-data; name=\"" : String).data ++
      (("language" : String).data ++ (("\"\r\n\r\n" : String).data ++ t)) := by
  have base : mpHdrLanguage ++ ("\r\n\r\n" : String).data =
      ("Content-Disposition: form-data; name=\"" : String).data ++
        ("language" : String).data ++ ("\"\r\n\r\n" : String).data := by decide
  rw [← List.append_assoc, base]
  simp [List.append_assoc]

theorem mpMergeFile (t : List Char) :
    mpHdrFile ++ (("\r\n\r\n" : String).data ++ t) =
    ("Content-Disposition: form-data; name=\"" : String).data ++
      (("file" : String).data ++ (("\"; filename=\"" : String).data ++
        (("audio.wav" : String).data ++ (("\"\r\n" : String).data ++
          (("Content-Type: " : String).data ++
            (("audio/wav" : String).data ++ (("\r\n\r\n" : String).data ++ t))))))) := by
  have base : mpHdrFile ++ ("\r\n\r\n" : String).data =
      ("Content-Disposition: form-data; name=\"" : String).data ++
        ("file" : String).data ++ ("\"; filename=\"" : String).data ++
        ("audio.wav" : String).data ++ ("\"\r\n" : String).data ++
        ("Content-Type: " : String).data ++ ("audio/wav" : String).data ++
        ("\r\n\r\n" : String).data := by decide
  rw [← List.append_assoc, base]
  simp [List.append_assoc]

theorem mpSplitCRDash (t : List Char) :
    ("\r\n--" : String).data ++ t =
      ("\r\n" : String).data ++ (("--" : String).data ++ t) := by
  have base : ("\r\n--" : String).data =
      ("\r\n" : String).data ++ ("--" : String).data := by decide
  rw [base]
  simp [List.append_assoc]

theorem parseFormData_eq (ctype body : String) (b : List Char)
    (h : boundaryFromContentType ctype = some b) :
    parseFormData ctype body = (parseMultipart b body.data).bind extractNames := by
  unfold parseFormData
  rw [h]

theorem parseMultipart_eq (b body rest : List Char)
    (h : dropPre ("--".data ++ b) body = some rest) :
    parseMultipart b body = parseParts b (body.length + 1) rest := by
  unfold parseMultipart
  rw [h]

set_option maxRecDepth 100000 in
theorem mpBodyEq (uuidHex : String) :
    (buildMultipartBody [("model", "m"), ("response_format", "json"),
        ("language", "en")] "file" "audio.wav" "audio/wav" "RIFF..." uuidHex).1.data =
      ("--".data ++ ("----open-whisper-".data ++ uuidHex.data)) ++
      ("\r\n".data ++ (mpHdrModel ++ ("\r\n\r\n".data ++ ("m".data ++ ("\r\n--".data ++ (("----open-whisper-".data ++ uuidHex.data) ++ ("\r\n".data ++ (mpHdrRespFormat ++ ("\r\n\r\n".data ++ ("json".data ++ ("\r\n--".data ++ (("----open-whisper-".data ++ uuidHex.data) ++ ("\r\n".data ++ (mpHdrLanguage ++ ("\r\n\r\n".data ++ ("en".data ++ ("\r\n--".data ++ (("----open-whisper-".data ++ uuidHex.data) ++ ("\r\n".data ++ (mpHdrFile ++ ("\r\n\r\n".data ++ ("RIFF...".data ++ ("\r\n--".data ++ (("----open-whisper-".data ++ uuidHex.data) ++ "--\r\n".data)))))))))))))))))))))))) := by
  have hemp : ("" : String).data = [] := rfl
  simp only [buildMultipartBody, fieldPartsString]
  rw [mpMergeModel, mpMergeRespFormat, mpMergeLanguage, mpMergeFile]
  simp only [mpSplitCRDash]
  simp [String.data_append, List.append_assoc, hemp, mpHdrModel,
    mpHdrRespFormat, mpHdrLanguage, mpHdrFile]

set_option maxRecDepth 100000 in
set_option maxHeartbeats 600000 in
/-- C6: the multipart body constructed by the remote provider
round-trips.  For the fields model="m", response_format="json",
language="en" and file bytes "RIFF...", parsing the constructed body with
the multipart reader, using the boundary taken from the returned content
type, yields exactly those field values and the original file bytes under
field name `file` — for every per-call `uuid4().hex` value. -/
theorem multipart_roundtrip (uuidHex : String) :
    parseFormData
      (buildMultipartBody [("model", "m"), ("response_format", "json"),
        ("language", "en")] "file" "audio.wav" "audio/wav" "RIFF..." uuidHex).2
      (buildMultipartBody [("model", "m"), ("response_format", "json"),
        ("language", "en")] "file" "audio.wav" "audio/wav" "RIFF..." uuidHex).1 =
      some [("model", "m"), ("response_format", "json"), ("language", "en"),
        ("file", "RIFF...")] := by
  have hB : boundaryFromContentType
      (buildMultipartBody [("model", "m"), ("response_format", "json"),
        ("language", "en")] "file" "audio.wav" "audio/wav" "RIFF..." uuidHex).2 =
      some ("----open-whisper-".data ++ uuidHex.data) := by
    unfold boundaryFromContentType
    apply dropPre_of_eq
    simp [buildMultipartBody, String.data_append]
  have hchain := mpStepModel ("----open-whisper-".data ++ uuidHex.data) _ _ _
    (mpStepRespFormat ("----open-whisper-".data ++ uuidHex.data) _ _ _
      (mpStepLanguage ("----open-whisper-".data ++ uuidHex.data) _ _ _
        (mpStepFile ("----open-whisper-".data ++ uuidHex.data) _ _ _
          (parseParts_close ("----open-whisper-".data ++ uuidHex.data) 0))))
  have hbody := mpBodyEq uuidHex
  have hinit : dropPre ("--".data ++ ("----open-whisper-".data ++ uuidHex.data))
      (buildMultipartBody [("model", "m"), ("response_format", "json"),
        ("language", "en")] "file" "audio.wav" "audio/wav" "RIFF..." uuidHex).1.data =
      some ("\r\n".data ++ (mpHdrModel ++ ("\r\n\r\n".data ++ ("m".data ++ ("\r\n--".data ++ (("----open-whisper-".data ++ uuidHex.data) ++ ("\r\n".data ++ (mpHdrRespFormat ++ ("\r\n\r\n".data ++ ("json".data ++ ("\r\n--".data ++ (("----open-whisper-".data ++ uuidHex.data) ++ ("\r\n".data ++ (mpHdrLanguage ++ ("\r\n\r\n".data ++ ("en".data ++ ("\r\n--".data ++ (("----open-whisper-".data ++ uuidHex.data) ++ ("\r\n".data ++ (mpHdrFile ++ ("\r\n\r\n".data ++ ("RIFF...".data ++ ("\r\n--".data ++ (("----open-whisper-".data ++ uuidHex.data) ++ "--\r\n".data)))))))))))))))))))))))) :=
    dropPre_of_eq _ _ _ hbody
  have hlenP : ("----open-whisper-".data : List Char).length = 17 := by decide
  have hlen2 : ("--".data : List Char).length = 2 := by decide
  have hle : 0 + 1 + 1 + 1 + 1 + 1 ≤
      (buildMultipartBody [("model", "m"), ("response_format", "json"),
        ("language", "en")] "file" "audio.wav" "audio/wav" "RIFF..." uuidHex).1.data.length + 1 := by
    rw [hbody]
    simp only [List.length_append, hlenP, hlen2]
    omega
  have hfinal := parseParts_mono ("----open-whisper-".data ++ uuidHex.data)
    (0 + 1 + 1 + 1 + 1 + 1) _ hle _ _ hchain
  rw [parseFormData_eq _ _ _ hB, parseMultipart_eq _ _ _ hinit, hfinal]
  decide
